import Mathlib

/-!
Verification of the usvg style/paint resolution core (`usvg-parser/src/style.rs`)
and of the scene-graph data model (`usvg-tree/src/lib.rs`).

The Rust source is shallowly embedded: machine `f64` values that only matter
through their sign bit and exact magnitude are modelled as a sign flag plus a
rational magnitude; the fuzzy floating-point zero test (`FuzzyEq`, a policy of
the external geometry module) is an explicit Boolean parameter; external
collaborators (the `rosvgtree` attribute layer, the `units` length converter,
the paint-server resolver and the geometry module, all outside the excerpt)
are modelled from the spec and marked as such in their doc comments.
-/

namespace Usvg

/-- Element identifiers (`String` in the source; modelled abstractly). -/
abbrev ElemId := Nat

/-- An element units (`usvg-tree/src/lib.rs`, `enum Units`). -/
inductive Units : Type where
  | userSpaceOnUse
  | objectBoundingBox
deriving DecidableEq

/-- A visibility property (`enum Visibility`, default `Visible`). -/
inductive Visibility : Type where
  | visible
  | hidden
  | collapse
deriving DecidableEq

/-- A shape rendering method (`enum ShapeRendering`, default `GeometricPrecision`). -/
inductive ShapeRendering : Type where
  | optimizeSpeed
  | crispEdges
  | geometricPrecision
deriving DecidableEq

/-- A blending mode property (`enum BlendMode`, 16 variants, default `Normal`). -/
inductive BlendMode : Type where
  | normal
  | multiply
  | screen
  | overlay
  | darken
  | lighten
  | colorDodge
  | colorBurn
  | hardLight
  | softLight
  | difference
  | exclusion
  | hue
  | saturation
  | color
  | luminosity
deriving DecidableEq

/-- A line cap (`enum LineCap`, default `Butt`). -/
inductive LineCap : Type where
  | butt
  | round
  | square
deriving DecidableEq

/-- A line join (`enum LineJoin`, default `Miter`). -/
inductive LineJoin : Type where
  | miter
  | round
  | bevel
deriving DecidableEq

/-- A fill rule (`enum FillRule`, default `NonZero`). -/
inductive FillRule : Type where
  | nonZero
  | evenOdd
deriving DecidableEq

/-- Representation of the paint-order property (`enum PaintOrder`, default
`FillAndStroke`). -/
inductive PaintOrder : Type where
  | fillAndStroke
  | strokeAndFill
deriving DecidableEq

/-- A 8-bit RGB color (`struct Color`; component range is irrelevant to the
claims, so components are plain naturals). -/
structure Color : Type where
  red : Nat
  green : Nat
  blue : Nat
deriving DecidableEq

/-- Constructs a new `Color` set to black (`Color::black`). -/
def Color.black : Color := ⟨0, 0, 0⟩

/-- A machine `f64` modelled as a sign bit plus an exact magnitude.  Both the
ordinary negatives (sign set, positive magnitude) and the IEEE negative zero
(sign set, zero magnitude) are representable; rounding plays no role in the
claims under verification. -/
structure F64 : Type where
  sign : Bool
  mag : ℚ
deriving DecidableEq

/-- Numeric value of a modelled `f64`; the negative zero has value `0`. -/
def F64.val (x : F64) : ℚ :=
  if x.sign then -x.mag else x.mag

/-- Rust `f64::is_sign_negative`: decided by the sign bit alone, so the
negative zero counts as sign-negative. -/
def F64.is_sign_negative (x : F64) : Bool :=
  x.sign

/-- The IEEE negative zero `-0.0`. -/
def F64.negZero : F64 := ⟨true, 0⟩

/-- Sum of the numeric values of a dash list (the `sum += *n` loop of
`conv_dasharray`). -/
def sumVals (list : List F64) : ℚ :=
  list.foldl (fun acc n => acc + n.val) 0

/-- Core of `conv_dasharray` (`usvg-parser/src/style.rs` lines 235–263): the
checks applied to the already-converted dash list.  `fz` models the external
`FuzzyEq::fuzzy_eq (· , 0.0)` test, whose epsilon is a policy of the geometry
module outside the excerpt. -/
def normalize_dasharray (fz : ℚ → Bool) (list : List F64) : Option (List F64) :=
  -- `A negative value is an error`
  if list.any F64.is_sign_negative then
    none
  -- `If the sum of the values is zero, then the stroke is rendered
  -- as if a value of none were specified.`
  else if fz (sumVals list) then
    none
  -- `If an odd number of values is provided, then the list of values
  -- is repeated to yield an even number of values.`
  else if list.length % 2 ≠ 0 then
    some (list ++ list)
  else
    some list

/-- Reference dash normalization as the spec words it: an entry is "negative"
when its numeric value is below zero (an ordered comparison with zero), the
remaining clauses unchanged.  To be compared with `normalize_dasharray`. -/
def spec_normalize_dasharray (fz : ℚ → Bool) (list : List F64) : Option (List F64) :=
  if list.any (fun n => n.val < 0) then
    none
  else if fz (sumVals list) then
    none
  else if list.length % 2 ≠ 0 then
    some (list ++ list)
  else
    some list

/-- Reference dash normalization amended by the counterexample: an entry is
invalid when its floating-point sign bit is set, so the negative zero also
yields no dashing. -/
def spec_normalize_dasharray_signbit (fz : ℚ → Bool) (list : List F64) :
    Option (List F64) :=
  if list.any (fun n => n.is_sign_negative) then
    none
  else if fz (sumVals list) then
    none
  else if list.length % 2 ≠ 0 then
    some (list ++ list)
  else
    some list

/-- Exact-zero instantiation of the fuzzy test, used for concrete inputs. -/
def fzExact : ℚ → Bool := fun q => q = 0

/-- An affine transform.  Modelled from the spec: the geometry module
(`geom.rs`) is outside the excerpt; per the spec it "composes affine
transforms", so `Transform` is the standard 2x3 affine matrix
`[[a, c, e], [b, d, f], [0, 0, 1]]` over exact rationals. -/
structure Transform : Type where
  a : ℚ
  b : ℚ
  c : ℚ
  d : ℚ
  e : ℚ
  f : ℚ
deriving DecidableEq

/-- The default transform (identity). -/
def Transform.identity : Transform := ⟨1, 0, 0, 1, 0, 0⟩

/-- Rust `Transform::append`: matrix product `self * other`, i.e. `other` acts
on points first.  Modelled from the spec (geometry module outside the
excerpt). -/
def Transform.append (t1 t2 : Transform) : Transform :=
  ⟨t1.a * t2.a + t1.c * t2.b,
   t1.b * t2.a + t1.d * t2.b,
   t1.a * t2.c + t1.c * t2.d,
   t1.b * t2.c + t1.d * t2.d,
   t1.a * t2.e + t1.c * t2.f + t1.e,
   t1.b * t2.e + t1.d * t2.f + t1.f⟩

theorem Transform.append_assoc (t1 t2 t3 : Transform) :
    (t1.append t2).append t3 = t1.append (t2.append t3) := by
  cases t1; cases t2; cases t3
  simp only [Transform.append, Transform.mk.injEq]
  exact ⟨by ring, by ring, by ring, by ring, by ring, by ring⟩

theorem Transform.identity_append (t : Transform) :
    Transform.identity.append t = t := by
  cases t
  simp [Transform.append, Transform.identity]

theorem Transform.append_identity (t : Transform) :
    t.append Transform.identity = t := by
  cases t
  simp [Transform.append, Transform.identity]

/-- An axis-aligned bounding box.  Modelled from the spec: the geometry module
is outside the excerpt; boxes are "expanded/unioned". -/
structure BBox : Type where
  left : ℚ
  top : ℚ
  right : ℚ
  bottom : ℚ
deriving DecidableEq

/-- Box union (`PathBbox::expand`): coordinatewise min/max. -/
def BBox.expand (b1 b2 : BBox) : BBox :=
  ⟨min b1.left b2.left, min b1.top b2.top,
   max b1.right b2.right, max b1.bottom b2.bottom⟩

/-- A rectangle (`Rect` / `ViewBox` payload; aspect-ratio policy irrelevant to
the claims). -/
structure Rect : Type where
  x : ℚ
  y : ℚ
  w : ℚ
  h : ℚ
deriving DecidableEq

/-- Path geometry (`Rc<PathData>`).  The segment representation lives in the
`pathdata` module outside the excerpt, so it is modelled abstractly; the
bounding-box computation on it is a parameter. -/
abbrev PathData := Nat

/-- An image rendering method (`enum ImageRendering`). -/
inductive ImageRendering : Type where
  | optimizeQuality
  | optimizeSpeed
deriving DecidableEq

/-- A spread method (`enum SpreadMethod`). -/
inductive SpreadMethod : Type where
  | pad
  | reflect
  | repeat
deriving DecidableEq

/-- Gradient's stop element (`struct Stop`). -/
structure Stop : Type where
  offset : ℚ
  color : Color
  opacity : ℚ
deriving DecidableEq

/-- A generic gradient (`struct BaseGradient`). -/
structure BaseGradient : Type where
  units : Units
  transform : Transform
  spread_method : SpreadMethod
  stops : List Stop
deriving DecidableEq

/-- A linear gradient (`struct LinearGradient`). -/
structure LinearGradient : Type where
  id : ElemId
  x1 : ℚ
  y1 : ℚ
  x2 : ℚ
  y2 : ℚ
  base : BaseGradient
deriving DecidableEq

/-- Units of a linear gradient (via `Deref` to `BaseGradient` in the source). -/
def LinearGradient.units (lg : LinearGradient) : Units := lg.base.units

/-- A radial gradient (`struct RadialGradient`). -/
structure RadialGradient : Type where
  id : ElemId
  cx : ℚ
  cy : ℚ
  r : ℚ
  fx : ℚ
  fy : ℚ
  base : BaseGradient
deriving DecidableEq

/-- Units of a radial gradient (via `Deref` to `BaseGradient` in the source). -/
def RadialGradient.units (rg : RadialGradient) : Units := rg.base.units

mutual

/-- A clip-path element (`struct ClipPath`): units, transform, an optional
chained clip path and the content sub-tree. -/
inductive ClipPathT : Type where
  | mk (id : ElemId) (units : Units) (transform : Transform)
      (clip_path : Option ClipPathT) (root : RNode) : ClipPathT

/-- A mask element (`struct Mask`): units, content units, rectangle, an
optional chained mask and the content sub-tree. -/
inductive MaskT : Type where
  | mk (id : ElemId) (units : Units) (content_units : Units) (rect : Rect)
      (mask : Option MaskT) (root : RNode) : MaskT

/-- A pattern element (`struct Pattern`): units, content units, transform,
rectangle, optional view box and the content sub-tree. -/
inductive PatternT : Type where
  | mk (id : ElemId) (units : Units) (content_units : Units)
      (transform : Transform) (rect : Rect) (view_box : Option Rect)
      (root : RNode) : PatternT

/-- A paint style (`enum Paint`): flat color or shared paint server. -/
inductive Paint : Type where
  | color (c : Color)
  | linearGradient (lg : LinearGradient)
  | radialGradient (rg : RadialGradient)
  | pattern (p : PatternT)

/-- A fill style (`struct Fill`). -/
inductive FillT : Type where
  | mk (paint : Paint) (opacity : ℚ) (rule : FillRule) : FillT

/-- A stroke style (`struct Stroke`). -/
inductive StrokeT : Type where
  | mk (paint : Paint) (dasharray : Option (List F64)) (dashoffset : ℚ)
      (miterlimit : ℚ) (opacity : ℚ) (width : ℚ) (linecap : LineCap)
      (linejoin : LineJoin) : StrokeT

/-- A group container (`struct Group`). -/
inductive GroupT : Type where
  | mk (id : ElemId) (transform : Transform) (opacity : ℚ)
      (blend_mode : BlendMode) (isolate : Bool) (clip_path : Option ClipPathT)
      (mask : Option MaskT) (filters : List Nat) (filter_fill : Option Paint)
      (filter_stroke : Option Paint)
      (enable_background : Option (Option Rect)) : GroupT

/-- A path element (`struct Path`). -/
inductive PathT : Type where
  | mk (id : ElemId) (transform : Transform) (visibility : Visibility)
      (fill : Option FillT) (stroke : Option StrokeT) (paint_order : PaintOrder)
      (rendering_mode : ShapeRendering) (text_bbox : Option Rect)
      (data : PathData) : PathT

/-- An embedded image kind (`enum ImageKind`); raw byte payloads are dropped,
the embedded sub-tree of the SVG variant is kept. -/
inductive ImageKindT : Type where
  | jpeg
  | png
  | gif
  | svg (root : RNode)

/-- A raster image element (`struct Image`). -/
inductive ImageT : Type where
  | mk (id : ElemId) (transform : Transform) (visibility : Visibility)
      (view_box : Rect) (rendering_mode : ImageRendering)
      (kind : ImageKindT) : ImageT

/-- A scene-graph node: the tagged variant `enum NodeKind` together with the
`rctree` child list (only groups have children in a resolved tree; the text
payload is opaque to this core beyond detection). -/
inductive RNode : Type where
  | group (g : GroupT) (children : List RNode)
  | path (p : PathT)
  | image (i : ImageT)
  | text (id : ElemId) (transform : Transform)

end

/-- Content sub-tree of a clip path. -/
def ClipPathT.root : ClipPathT → RNode
  | .mk _ _ _ _ r => r

/-- Content sub-tree of a mask. -/
def MaskT.root : MaskT → RNode
  | .mk _ _ _ _ _ r => r

/-- Content sub-tree of a pattern. -/
def PatternT.root : PatternT → RNode
  | .mk _ _ _ _ _ _ r => r

/-- Coordinate units of a pattern (`patternUnits`). -/
def PatternT.units : PatternT → Units
  | .mk _ u _ _ _ _ _ => u

/-- Rust `Paint::units`: `None` for flat colors, the coordinate-system unit
for every shared-resource variant (`usvg-tree/src/lib.rs` lines 586–599). -/
def Paint.units : Paint → Option Units
  | .color _ => none
  | .linearGradient lg => some lg.units
  | .radialGradient rg => some rg.units
  | .pattern p => some p.units

/-- Paint of a fill. -/
def FillT.paint : FillT → Paint
  | .mk p _ _ => p

/-- Opacity of a fill. -/
def FillT.opacity : FillT → ℚ
  | .mk _ o _ => o

/-- Fill rule of a fill. -/
def FillT.rule : FillT → FillRule
  | .mk _ _ r => r

/-- Paint of a stroke. -/
def StrokeT.paint : StrokeT → Paint
  | .mk p _ _ _ _ _ _ _ => p

/-- Transform of a group. -/
def GroupT.transform : GroupT → Transform
  | .mk _ t _ _ _ _ _ _ _ _ _ => t

/-- Opacity of a group. -/
def GroupT.opacity : GroupT → ℚ
  | .mk _ _ o _ _ _ _ _ _ _ _ => o

/-- Blend mode of a group. -/
def GroupT.blend_mode : GroupT → BlendMode
  | .mk _ _ _ b _ _ _ _ _ _ _ => b

/-- Isolation flag of a group. -/
def GroupT.isolate : GroupT → Bool
  | .mk _ _ _ _ i _ _ _ _ _ _ => i

/-- Clip path of a group. -/
def GroupT.clip_path : GroupT → Option ClipPathT
  | .mk _ _ _ _ _ cp _ _ _ _ _ => cp

/-- Mask of a group. -/
def GroupT.mask : GroupT → Option MaskT
  | .mk _ _ _ _ _ _ m _ _ _ _ => m

/-- Filter list of a group. -/
def GroupT.filters : GroupT → List Nat
  | .mk _ _ _ _ _ _ _ fs _ _ _ => fs

/-- Transform of a path. -/
def PathT.transform : PathT → Transform
  | .mk _ t _ _ _ _ _ _ _ => t

/-- Fill of a path. -/
def PathT.fill : PathT → Option FillT
  | .mk _ _ _ f _ _ _ _ _ => f

/-- Stroke of a path. -/
def PathT.stroke : PathT → Option StrokeT
  | .mk _ _ _ _ s _ _ _ _ => s

/-- Geometry of a path. -/
def PathT.data : PathT → PathData
  | .mk _ _ _ _ _ _ _ _ d => d

/-- Transform of an image. -/
def ImageT.transform : ImageT → Transform
  | .mk _ t _ _ _ _ => t

/-- Fit rectangle of an image. -/
def ImageT.view_box : ImageT → Rect
  | .mk _ _ _ vb _ _ => vb

/-- Rust `Group::should_isolate` (`usvg-tree/src/lib.rs` lines 811–821):
isolate flag, non-unit opacity, clip path, mask, any filter, or non-normal
blend mode force isolation. -/
def GroupT.should_isolate (g : GroupT) : Bool :=
  g.isolate
    || !(g.opacity == 1)
    || g.clip_path.isSome
    || g.mask.isSome
    || !g.filters.isEmpty
    || !(g.blend_mode == BlendMode.normal)

/-- Rust `NodeKind::transform` (`usvg-tree/src/lib.rs` lines 717–724). -/
def RNode.transform : RNode → Transform
  | .group g _ => g.transform
  | .path p => p.transform
  | .image i => i.transform
  | .text _ t => t

/-- Rust `NodeExt::abs_transform` (`usvg-tree/src/lib.rs` lines 1107–1119).
A node is embedded as the transform chain of its `self.ancestors()` iterator,
which yields the node itself first and the root last.  The code collects the
chain into `ts_list`, then folds `Transform::append` over it in reverse order
starting from the default (identity) transform. -/
def abs_transform (ancestors : List Transform) : Transform :=
  (ancestors.reverse).foldl Transform.append Transform.identity

/-- Root-first composition of a transform chain as the spec words it: the
composition of the listed transforms with every parent applied before (to the
left of) its child.  To be compared with `abs_transform` on the reversed
(self-first) chain. -/
def composeRootFirst (l : List Transform) : Transform :=
  l.foldr Transform.append Transform.identity

theorem foldl_append_eq (l : List Transform) (t : Transform) :
    l.foldl Transform.append t = t.append (composeRootFirst l) := by
  induction l generalizing t with
  | nil => simp [composeRootFirst, Transform.append_identity]
  | cons x xs ih =>
      simp only [List.foldl_cons, composeRootFirst, List.foldr_cons]
      rw [ih (t.append x), Transform.append_assoc]
      rfl

mutual

/-- Rust `has_text_nodes` (`usvg-tree/src/lib.rs` lines 1016–1057).  The
source iterates `root.descendants()` with an early `return true`; that
existential scan is embedded as structural recursion: a group scans its linked
clip-path and mask content sub-trees and its children, a path scans the
content of a pattern used as its fill or stroke paint, an image is not
descended into, a text node reports true. -/
def has_text_nodes : RNode → Bool
  | .group g cs => group_res_text g || list_has_text cs
  | .path (.mk _ _ _ fill stroke _ _ _ _) => fill_has_text fill || stroke_has_text stroke
  | .image _ => false
  | .text _ _ => true

/-- Clip-path and mask arms of the group case of `has_text_nodes`. -/
def group_res_text : GroupT → Bool
  | .mk _ _ _ _ _ cp m _ _ _ _ => clip_has_text cp || mask_has_text m

/-- Scan of `g.clip_path`'s content sub-tree. -/
def clip_has_text : Option ClipPathT → Bool
  | none => false
  | some (.mk _ _ _ _ root) => has_text_nodes root

/-- Scan of `g.mask`'s content sub-tree. -/
def mask_has_text : Option MaskT → Bool
  | none => false
  | some (.mk _ _ _ _ _ root) => has_text_nodes root

/-- Scan of a path's fill paint for a pattern content sub-tree. -/
def fill_has_text : Option FillT → Bool
  | none => false
  | some (.mk paint _ _) => paint_has_text paint

/-- Scan of a path's stroke paint for a pattern content sub-tree. -/
def stroke_has_text : Option StrokeT → Bool
  | none => false
  | some (.mk paint _ _ _ _ _ _ _) => paint_has_text paint

/-- Scan of a paint: only the pattern variant carries a content sub-tree. -/
def paint_has_text : Paint → Bool
  | .pattern (.mk _ _ _ _ _ _ root) => has_text_nodes root
  | _ => false

/-- Scan of a child list. -/
def list_has_text : List RNode → Bool
  | [] => false
  | c :: cs => has_text_nodes c || list_has_text cs

end

/-- Spec-side reachability: a Text node is reachable from a node in the
expanded graph that, beyond strict parent/child edges, includes every group's
linked clip-path and mask content sub-trees and, for every path whose fill or
stroke paint is a pattern, the pattern's content sub-tree. -/
inductive TextReachable : RNode → Prop where
  | text (id : ElemId) (t : Transform) : TextReachable (.text id t)
  | child {g : GroupT} {cs : List RNode} {c : RNode} :
      c ∈ cs → TextReachable c → TextReachable (.group g cs)
  | clip {g : GroupT} {cs : List RNode} {cl : ClipPathT} :
      g.clip_path = some cl → TextReachable cl.root → TextReachable (.group g cs)
  | mask {g : GroupT} {cs : List RNode} {m : MaskT} :
      g.mask = some m → TextReachable m.root → TextReachable (.group g cs)
  | fillPattern {p : PathT} {f : FillT} {pat : PatternT} :
      p.fill = some f → f.paint = .pattern pat → TextReachable pat.root →
      TextReachable (.path p)
  | strokePattern {p : PathT} {s : StrokeT} {pat : PatternT} :
      p.stroke = some s → s.paint = .pattern pat → TextReachable pat.root →
      TextReachable (.path p)

/-- A nodes tree container (`struct Tree`). -/
structure TreeT : Type where
  size : Rect
  view_box : Rect
  root : RNode

/-- Rust `Tree::has_text_nodes` (`usvg-tree/src/lib.rs` lines 1010–1013). -/
def TreeT.has_text_nodes (t : TreeT) : Bool :=
  Usvg.has_text_nodes t.root

mutual

/-- Rust `calc_node_bbox` (`usvg-tree/src/lib.rs` lines 1160–1187).  The
geometry leaves live outside the excerpt and are parameters: `bb` models
`PathData::bbox_with_transform` and `fr` models `PathData::from_rect`. -/
def calc_node_bbox (bb : PathData → Transform → Option StrokeT → Option BBox)
    (fr : Rect → PathData) : RNode → Transform → Option BBox
  | .path (.mk _ _ _ _ stroke _ _ _ d), ts => bb d ts stroke
  | .image (.mk _ _ _ vb _ _), ts => bb (fr vb) ts none
  | .group _ cs, ts => calc_children bb fr cs ts none
  | .text _ _, _ => none

/-- The child loop of the group arm of `calc_node_bbox`: each child is entered
with the accumulated transform composed with the child's own transform and
every non-`none` child box is expanded into the accumulator, which models the
`PathBbox::new_bbox()` sentinel (`none` while no child has contributed; the
final `fuzzy_eq` sentinel check of the source then reports `None`). -/
def calc_children (bb : PathData → Transform → Option StrokeT → Option BBox)
    (fr : Rect → PathData) :
    List RNode → Transform → Option BBox → Option BBox
  | [], _, acc => acc
  | c :: cs, ts, acc =>
    let child_transform := ts.append c.transform
    match calc_node_bbox bb fr c child_transform with
    | some cb =>
        calc_children bb fr cs ts
          (some (match acc with | none => cb | some b => b.expand cb))
    | none => calc_children bb fr cs ts acc

end

/-- Union of a list of optional boxes, as the spec words the group rule:
all non-empty child boxes are unioned, and the result is empty when no child
contributed a box. -/
def bbox_union_list (l : List (Option BBox)) : Option BBox :=
  l.foldl
    (fun acc ob =>
      match ob with
      | some b => some (match acc with | none => b | some bb => bb.expand b)
      | none => acc)
    none

/-- A source color with alpha (`svgtypes::Color`). -/
structure RGBA : Type where
  red : Nat
  green : Nat
  blue : Nat
  alpha : ℚ
deriving DecidableEq

/-- Rust `split_alpha`: split a source color into an RGB `Color` and an alpha
opacity (spec: alpha is always produced by splitting at interpretation). -/
def RGBA.split_alpha (c : RGBA) : Color × ℚ :=
  (⟨c.red, c.green, c.blue⟩, c.alpha)

/-- `svgtypes::Color::black()`: opaque black. -/
def RGBA.black : RGBA := ⟨0, 0, 0, 1⟩

/-- The fallback clause of a functional IRI (`svgtypes::PaintFallback`). -/
inductive PaintFallback : Type where
  | none
  | currentColor
  | color (c : RGBA)
deriving DecidableEq

/-- Parse result of a paint attribute value (`svgtypes::Paint::from_str`).
The typed-parse helper is an external collaborator, so an attribute carries
its parse verdict directly; `unparseable` stands for the `Err` case. -/
inductive PaintValue : Type where
  | unparseable
  | none
  | inherit
  | currentColor
  | color (c : RGBA)
  | funcIRI (iri : ElemId) (fallback : Option PaintFallback)
deriving DecidableEq

/-- Attribute identities consumed by the style resolvers
(`rosvgtree::AttributeId`). -/
inductive AId : Type where
  | fill
  | stroke
  | color
  | clipRule
  | fillRule
  | fillOpacity
  | strokeOpacity
  | strokeWidth
  | strokeMiterlimit
  | strokeDasharray
  | strokeDashoffset
  | strokeLinecap
  | strokeLinejoin
deriving DecidableEq

/-- An attribute-bearing source node.  Attribute values are carried already
run through the external typed-parse helpers (spec section 6); an outer
`Option.none` means the attribute is not declared on the node.  The dash
array additionally carries the verdict of the external `units::convert_list`
(inner `none` = conversion failed). -/
structure SvgNode : Type where
  fill : Option PaintValue := none
  stroke : Option PaintValue := none
  color : Option RGBA := none
  clip_rule : Option FillRule := none
  fill_rule : Option FillRule := none
  fill_opacity : Option ℚ := none
  stroke_opacity : Option ℚ := none
  stroke_width : Option F64 := none
  stroke_miterlimit : Option ℚ := none
  stroke_dasharray : Option (Option (List F64)) := none
  stroke_dashoffset : Option ℚ := none
  stroke_linecap : Option LineCap := none
  stroke_linejoin : Option LineJoin := none
deriving DecidableEq

/-- Rust `has_attribute` of the source layer (external collaborator, spec
section 6): is the attribute directly set on this node. -/
def SvgNode.has_attribute (n : SvgNode) (aid : AId) : Bool :=
  match aid with
  | .fill => n.fill.isSome
  | .stroke => n.stroke.isSome
  | .color => n.color.isSome
  | .clipRule => n.clip_rule.isSome
  | .fillRule => n.fill_rule.isSome
  | .fillOpacity => n.fill_opacity.isSome
  | .strokeOpacity => n.stroke_opacity.isSome
  | .strokeWidth => n.stroke_width.isSome
  | .strokeMiterlimit => n.stroke_miterlimit.isSome
  | .strokeDasharray => n.stroke_dasharray.isSome
  | .strokeDashoffset => n.stroke_dashoffset.isSome
  | .strokeLinecap => n.stroke_linecap.isSome
  | .strokeLinejoin => n.stroke_linejoin.isSome

/-- A node-like cursor, embedded as the node's self-first ancestor chain
(`ancestors()` yields the node itself first and the root last, spec
section 6). -/
abbrev Cursor := List SvgNode

/-- Rust `node.ancestors().find(|n| n.has_attribute(aid))`: the nearest
self-or-ancestor declarer of the attribute, returned as a cursor (the declarer
together with its own ancestors). -/
def find_declarer (c : Cursor) (aid : AId) : Option Cursor :=
  match c with
  | [] => none
  | n :: rest =>
      if n.has_attribute aid then some (n :: rest) else find_declarer rest aid

/-- Modelled from the spec (4.1): `find_and_parse_attribute` of the external
`rosvgtree` layer — the declared value of the nearest self-or-ancestor
declarer. -/
def find_and_parse {α : Type} (c : Cursor) (get : SvgNode → Option α) : Option α :=
  match c with
  | [] => none
  | n :: rest =>
      match get n with
      | some v => some v
      | none => find_and_parse rest get

/-- Rust `parse_attribute`: a direct (non-inherited) read from the node
itself. -/
def parse_direct {α : Type} (c : Cursor) (get : SvgNode → Option α) : Option α :=
  c.head?.bind get

/-- Rust `node.attribute(aid)` restricted to the two paint attributes
`convert_paint` is invoked with. -/
def paint_attribute (c : Cursor) (aid : AId) : Option PaintValue :=
  c.head?.bind fun n =>
    match aid with
    | .fill => n.fill
    | .stroke => n.stroke
    | _ => none

/-- Modelled from the spec: the verdict of the external paint-server resolver
(`paint_server::convert`, spec: `resolve_paint_server(node) ->
Option<ServerOrColor>`) — a shared server object or a degenerate flat
color. -/
inductive ServerOrColor : Type where
  | server (paint : Paint)
  | color (color : Color) (opacity : ℚ)

/-- A referencable document element, reduced to what `convert_paint` consumes:
whether its tag is a recognized paint-server kind, and the modelled verdict of
the external paint-server resolver on it. -/
structure Element : Type where
  is_paint_server : Bool
  server : Option ServerOrColor

/-- The document, as the index behind the external `element_by_id`. -/
abbrev Document := List (ElemId × Element)

/-- Rust `node.document().element_by_id(id)` (external source layer). -/
def element_by_id (doc : Document) (id : ElemId) : Option Element :=
  (doc.find? (fun e => e.1 == id)).map (fun e => e.2)

/-- The `currentColor` arm, textually shared by `convert_paint` and
`from_fallback`: read the `color` property via the inheritance walk (default
black), split its alpha into the opacity accumulator. -/
def current_color_paint (node : Cursor) : Option Paint × ℚ :=
  let svg_color := (find_and_parse node (fun n => n.color)).getD RGBA.black
  let (color, alpha) := svg_color.split_alpha
  (some (.color color), alpha)

/-- Rust `from_fallback` (`usvg-parser/src/style.rs` lines 204–225).  The
second component of the pair is the `opacity` out-parameter (the callers pass
in `1`, and only the color-producing arms write it). -/
def from_fallback (node : Cursor) (fallback : Option PaintFallback) :
    Option Paint × ℚ :=
  match fallback with
  | Option.none => (none, 1)
  | some .none => (none, 1)
  | some .currentColor => current_color_paint node
  | some (.color svg_color) =>
      let (color, alpha) := svg_color.split_alpha
      (some (.color color), alpha)

/-- Rust `convert_paint` (`usvg-parser/src/style.rs` lines 131–202), on the
declarer's cursor.  The second component of the result is the `opacity`
out-parameter (initialized to `1` by the callers and written only by the
color-producing arms). -/
def convert_paint (doc : Document) (node : Cursor) (aid : AId)
    (has_bbox : Bool) : Option Paint × ℚ :=
  match paint_attribute node aid with
  | Option.none => (none, 1)
  | some value =>
    match
      (match value with
       | .unparseable =>
           -- on a parse error, fill warns and falls back to black; stroke gives up
           if aid = AId.fill then some (PaintValue.color RGBA.black) else none
       | v => some v)
    with
    | Option.none => (none, 1)
    | some paint =>
      match paint with
      | .unparseable => (none, 1)  -- not reachable: replaced by black above
      | .none => (none, 1)
      | .inherit => (none, 1)      -- already resolved by rosvgtree
      | .currentColor => current_color_paint node
      | .color svg_color =>
          let (color, alpha) := svg_color.split_alpha
          (some (.color color), alpha)
      | .funcIRI func_iri fallback =>
          match element_by_id doc func_iri with
          | some link =>
              if link.is_paint_server then
                match link.server with
                | some (.server paint) =>
                    -- a paint server with ObjectBoundingBox units is usable
                    -- only when the shape itself has a bbox (SVG spec 7.11)
                    if !has_bbox && paint.units == some Units.objectBoundingBox then
                      from_fallback node fallback
                    else
                      (some paint, 1)
                | some (.color color so) => (some (.color color), so)
                | Option.none => from_fallback node fallback
              else
                -- warn: this element cannot be used to paint a shape
                (none, 1)
          | Option.none => from_fallback node fallback

/-- Rust `resolve_fill` (`usvg-parser/src/style.rs` lines 43–79).  The `state`
argument is reduced to the single field read here:
`state.parent_clip_path.is_some()`. -/
def resolve_fill (doc : Document) (node : Cursor) (has_bbox : Bool)
    (parent_clip_path : Bool) : Option FillT :=
  if parent_clip_path then
    -- a clipPath child can be filled only with a black color
    some (.mk (.color Color.black) 1
      ((find_and_parse node (fun n => n.clip_rule)).getD FillRule.nonZero))
  else
    let res :=
      match find_declarer node AId.fill with
      | some n => convert_paint doc n AId.fill has_bbox
      | Option.none => (some (.color Color.black), 1)
    match res with
    | (Option.none, _) => none
    | (some paint, sub_opacity) =>
      let fill_opacity := (parse_direct node (fun n => n.fill_opacity)).getD 1
      some (.mk paint (sub_opacity * fill_opacity)
        ((find_and_parse node (fun n => n.fill_rule)).getD FillRule.nonZero))

/-- Rust `conv_dasharray` (`usvg-parser/src/style.rs` lines 229–264): walk
inheritance for the dash-array declarer, read the verdict of the external
`units::convert_list` on it, then run the checks of `normalize_dasharray`. -/
def conv_dasharray (fz : ℚ → Bool) (node : Cursor) : Option (List F64) :=
  match find_declarer node AId.strokeDasharray with
  | Option.none => none
  | some declarer =>
    match declarer.head?.bind (fun n => n.stroke_dasharray) with
    | Option.none => none        -- no declared value (not reachable here)
    | some Option.none => none   -- convert_list failed
    | some (some list) => normalize_dasharray fz list

/-- Modelled from the spec (4.3): `resolve_valid_length` of the external units
collaborator on the stroke width — resolve with a default of `1.0`; a width
that resolves to zero (or below) suppresses the stroke. -/
def resolve_stroke_width (node : Cursor) : Option ℚ :=
  let w := (find_and_parse node (fun n => n.stroke_width)).getD ⟨false, 1⟩
  if 0 < w.val then some w.val else none

/-- Modelled from the spec: `resolve_length` of the external units
collaborator on the dash offset, default `0`. -/
def resolve_dashoffset (node : Cursor) : ℚ :=
  (find_and_parse node (fun n => n.stroke_dashoffset)).getD 0

/-- Rust `resolve_stroke` (`usvg-parser/src/style.rs` lines 81–129). -/
def resolve_stroke (fz : ℚ → Bool) (doc : Document) (node : Cursor)
    (has_bbox : Bool) (parent_clip_path : Bool) : Option StrokeT :=
  if parent_clip_path then
    -- a clipPath child cannot be stroked
    none
  else
    match find_declarer node AId.stroke with
    | Option.none => none
    | some n =>
      match convert_paint doc n AId.stroke has_bbox with
      | (Option.none, _) => none
      | (some paint, sub_opacity) =>
        match resolve_stroke_width node with
        | Option.none => none
        | some width =>
          -- must be bigger than 1
          let ml := (find_and_parse node (fun n => n.stroke_miterlimit)).getD 4
          let miterlimit := if ml < 1 then 1 else ml
          let stroke_opacity := (parse_direct node (fun n => n.stroke_opacity)).getD 1
          some (.mk paint (conv_dasharray fz node) (resolve_dashoffset node)
            miterlimit (sub_opacity * stroke_opacity) width
            ((find_and_parse node (fun n => n.stroke_linecap)).getD LineCap.butt)
            ((find_and_parse node (fun n => n.stroke_linejoin)).getD LineJoin.miter))

/-! Theorems for the isolation predicate, the absolute transform and the
bounding-box calculator. -/

/-- Claim C5: `should_isolate()` returns true iff at least one of the isolate
flag, opacity ≠ 1, clip-path present, mask present, non-empty filter list, or
blend mode ≠ Normal holds; false otherwise. -/
theorem should_isolate_spec (g : GroupT) :
    g.should_isolate = true ↔
      (g.isolate = true ∨ g.opacity ≠ 1 ∨ g.clip_path.isSome = true ∨
        g.mask.isSome = true ∨ g.filters ≠ [] ∨
        g.blend_mode ≠ BlendMode.normal) := by
  simp only [GroupT.should_isolate, Bool.or_eq_true, bne_iff_ne, ne_eq,
    List.isEmpty_iff, List.isEmpty_eq_false, Bool.not_eq_true',
    beq_eq_false_iff_ne]
  tauto

/-- Claim C6 (amended): `abs_transform` equals the root-first composition of
the transforms of the node's self-first ancestor chain — the chain `ancestors()`
yields includes the node itself, whose transform is composed last, after every
parent — and a node whose chain is just itself yields its own transform (the
identity exactly when its own transform is the identity). -/
theorem abs_transform_spec (chain : List Transform) (t : Transform) :
    abs_transform chain = composeRootFirst chain.reverse
    ∧ abs_transform [t] = t := by
  constructor
  · rw [abs_transform, foldl_append_eq, Transform.identity_append]
  · rw [abs_transform, foldl_append_eq, Transform.identity_append]
    simp [composeRootFirst, Transform.append_identity]

/-- Claim C6 counterexample: a detached node (no ancestors beyond itself)
whose own transform is the translation by `(5, 0)` has `abs_transform` equal
to that translation, not to the identity transform the claim requires. -/
theorem abs_transform_counterexample :
    abs_transform [⟨1, 0, 0, 1, 5, 0⟩] = (⟨1, 0, 0, 1, 5, 0⟩ : Transform)
    ∧ (⟨1, 0, 0, 1, 5, 0⟩ : Transform) ≠ Transform.identity := by
  refine ⟨Transform.identity_append _, ?_⟩
  intro h
  have : (5 : ℚ) = 0 := congrArg Transform.e h
  norm_num at this

theorem calc_children_eq
    (bb : PathData → Transform → Option StrokeT → Option BBox)
    (fr : Rect → PathData) (cs : List RNode) (ts : Transform)
    (acc : Option BBox) :
    calc_children bb fr cs ts acc =
      (cs.map (fun c => calc_node_bbox bb fr c (ts.append c.transform))).foldl
        (fun a ob =>
          match ob with
          | some b => some (match a with | none => b | some bb' => bb'.expand b)
          | none => a)
        acc := by
  induction cs generalizing acc with
  | nil => rfl
  | cons c cs ih =>
      rw [calc_children, List.map_cons, List.foldl_cons]
      cases h : calc_node_bbox bb fr c (ts.append c.transform) with
      | none => exact ih _
      | some cb => exact ih _

theorem bbox_union_list_all_none (l : List (Option BBox))
    (h : ∀ x ∈ l, x = none) : bbox_union_list l = none := by
  induction l with
  | nil => rfl
  | cons x xs ih =>
      have hx : x = none := h x (List.mem_cons_self x xs)
      rw [bbox_union_list, List.foldl_cons, hx]
      exact ih fun y hy => h y (List.mem_cons_of_mem x hy)

/-- Claim C8: on a group the bounding-box calculator recurses into each child
with the accumulated transform composed with the child's own transform and
unions all non-empty child boxes; when no child contributes a box the result
is none; on a Text node the result is always none. -/
theorem calc_node_bbox_spec
    (bb : PathData → Transform → Option StrokeT → Option BBox)
    (fr : Rect → PathData) (g : GroupT) (cs : List RNode) (ts : Transform)
    (id : ElemId) (t : Transform) :
    calc_node_bbox bb fr (.group g cs) ts =
      bbox_union_list
        (cs.map (fun c => calc_node_bbox bb fr c (ts.append c.transform)))
    ∧ ((∀ c ∈ cs, calc_node_bbox bb fr c (ts.append c.transform) = none) →
        calc_node_bbox bb fr (.group g cs) ts = none)
    ∧ calc_node_bbox bb fr (.text id t) ts = none := by
  have hg : calc_node_bbox bb fr (.group g cs) ts =
      bbox_union_list
        (cs.map (fun c => calc_node_bbox bb fr c (ts.append c.transform))) := by
    rw [calc_node_bbox, calc_children_eq, bbox_union_list]
  refine ⟨hg, ?_, rfl⟩
  intro hnone
  rw [hg]
  exact bbox_union_list_all_none _ (by
    intro x hx
    obtain ⟨c, hc, rfl⟩ := List.mem_map.mp hx
    exact hnone c hc)

/-- Claim C8 witness: the calculator at concrete inputs — a group with one
child whose box is empty yields none, as does an empty group and a text
node. -/
theorem calc_node_bbox_spec_witness :
    calc_node_bbox (fun _ _ _ => none) (fun _ => 0)
      (.group (.mk 0 Transform.identity 1 .normal false none none [] none none none)
        [.text 1 Transform.identity])
      Transform.identity = none :=
  (calc_node_bbox_spec (fun _ _ _ => none) (fun _ => 0)
      (.mk 0 Transform.identity 1 .normal false none none [] none none none)
      [.text 1 Transform.identity] Transform.identity 1
      Transform.identity).2.1
    (by intro c hc; simp at hc; subst hc; rfl)

/-! Theorems for the text-presence scan. -/

theorem list_has_text_iff (cs : List RNode) :
    list_has_text cs = true ↔ ∃ c ∈ cs, has_text_nodes c = true := by
  induction cs with
  | nil => simp [list_has_text]
  | cons c cs ih => simp [list_has_text, ih]

theorem list_has_text_of_mem {cs : List RNode} {c : RNode} (hc : c ∈ cs)
    (h : has_text_nodes c = true) : list_has_text cs = true :=
  (list_has_text_iff cs).mpr ⟨c, hc, h⟩

theorem has_text_nodes_sound :
    ∀ (k : Nat) (n : RNode), sizeOf n ≤ k → has_text_nodes n = true →
      TextReachable n := by
  intro k
  induction k with
  | zero =>
      intro n hs _
      exfalso
      cases n <;> simp_arith at hs
  | succ k ih =>
      intro n hs ht
      match n with
      | .text id t => exact TextReachable.text id t
      | .image i => exact absurd ht (by simp [has_text_nodes])
      | .path (.mk pid pt pv pfill pstroke ppo prm ptb pd) =>
          rw [has_text_nodes, Bool.or_eq_true] at ht
          rcases ht with hf | hsk
          · cases pfill with
            | none => simp [fill_has_text] at hf
            | some f =>
                obtain ⟨paint, fop, frule⟩ := f
                cases paint with
                | pattern pat =>
                    obtain ⟨a, b, c, d, e, f2, root⟩ := pat
                    rw [fill_has_text, paint_has_text] at hf
                    refine TextReachable.fillPattern rfl rfl ?_
                    exact ih root (by simp_arith at hs ⊢; omega) hf
                | color c => simp [fill_has_text, paint_has_text] at hf
                | linearGradient lg => simp [fill_has_text, paint_has_text] at hf
                | radialGradient rg => simp [fill_has_text, paint_has_text] at hf
          · cases pstroke with
            | none => simp [stroke_has_text] at hsk
            | some s =>
                obtain ⟨paint, da, doff, ml, sop, w, lc, lj⟩ := s
                cases paint with
                | pattern pat =>
                    obtain ⟨a, b, c, d, e, f2, root⟩ := pat
                    rw [stroke_has_text, paint_has_text] at hsk
                    refine TextReachable.strokePattern rfl rfl ?_
                    exact ih root (by simp_arith at hs ⊢; omega) hsk
                | color c => simp [stroke_has_text, paint_has_text] at hsk
                | linearGradient lg => simp [stroke_has_text, paint_has_text] at hsk
                | radialGradient rg => simp [stroke_has_text, paint_has_text] at hsk
      | .group (.mk gid gt gop gbm giso gcp gm gfs gff gfsk geb) cs =>
          rw [has_text_nodes, Bool.or_eq_true] at ht
          rcases ht with hres | hch
          · rw [group_res_text, Bool.or_eq_true] at hres
            rcases hres with hclip | hmask
            · cases gcp with
              | none => simp [clip_has_text] at hclip
              | some cl =>
                  obtain ⟨ca, cb, cc, cch, croot⟩ := cl
                  rw [clip_has_text] at hclip
                  refine TextReachable.clip rfl ?_
                  exact ih croot (by simp_arith at hs ⊢; omega) hclip
            · cases gm with
              | none => simp [mask_has_text] at hmask
              | some m =>
                  obtain ⟨ma, mb, mc, md, mch, mroot⟩ := m
                  rw [mask_has_text] at hmask
                  refine TextReachable.mask rfl ?_
                  exact ih mroot (by simp_arith at hs ⊢; omega) hmask
          · obtain ⟨c, hc, hct⟩ := (list_has_text_iff cs).mp hch
            have hlt : sizeOf c < sizeOf cs := List.sizeOf_lt_of_mem hc
            exact TextReachable.child hc (ih c (by simp_arith at hs; omega) hct)

theorem has_text_nodes_complete (n : RNode) (h : TextReachable n) :
    has_text_nodes n = true := by
  induction h with
  | text id t => rfl
  | child hmem htr ih =>
      rw [has_text_nodes, Bool.or_eq_true]
      exact Or.inr (list_has_text_of_mem hmem ih)
  | clip hcp htr ih =>
      rename_i g cs cl
      obtain ⟨gid, gt, gop, gbm, giso, gcp, gm, gfs, gff, gfsk, geb⟩ := g
      simp only [GroupT.clip_path] at hcp
      subst hcp
      obtain ⟨ca, cb, cc, cch, croot⟩ := cl
      rw [has_text_nodes, Bool.or_eq_true]
      refine Or.inl ?_
      rw [group_res_text, Bool.or_eq_true]
      exact Or.inl ih
  | mask hm htr ih =>
      rename_i g cs m
      obtain ⟨gid, gt, gop, gbm, giso, gcp, gm, gfs, gff, gfsk, geb⟩ := g
      simp only [GroupT.mask] at hm
      subst hm
      obtain ⟨ma, mb, mc, md, mch, mroot⟩ := m
      rw [has_text_nodes, Bool.or_eq_true]
      refine Or.inl ?_
      rw [group_res_text, Bool.or_eq_true]
      exact Or.inr ih
  | fillPattern hfill hpaint htr ih =>
      rename_i p f pat
      obtain ⟨pid, pt, pv, pfill, pstroke, ppo, prm, ptb, pd⟩ := p
      simp only [PathT.fill] at hfill
      subst hfill
      obtain ⟨paint, fop, frule⟩ := f
      simp only [FillT.paint] at hpaint
      subst hpaint
      obtain ⟨a, b, c, d, e, f2, root⟩ := pat
      rw [has_text_nodes, Bool.or_eq_true]
      refine Or.inl ?_
      rw [fill_has_text, paint_has_text]
      exact ih
  | strokePattern hstroke hpaint htr ih =>
      rename_i p s pat
      obtain ⟨pid, pt, pv, pfill, pstroke, ppo, prm, ptb, pd⟩ := p
      simp only [PathT.stroke] at hstroke
      subst hstroke
      obtain ⟨paint, da, doff, ml, sop, w, lc, lj⟩ := s
      simp only [StrokeT.paint] at hpaint
      subst hpaint
      obtain ⟨a, b, c, d, e, f2, root⟩ := pat
      rw [has_text_nodes, Bool.or_eq_true]
      refine Or.inr ?_
      rw [stroke_has_text, paint_has_text]
      exact ih

/-- Claim C9: `has_text_nodes` returns true iff a Text node is reachable in
the expanded reachability graph that, beyond strict parent/child edges,
includes every group's linked clip-path and mask content sub-trees and, for
every path whose fill or stroke paint is a pattern, the pattern's content
sub-tree; in particular it is true for a tree whose only text node is
reachable solely through a pattern referenced by a path's fill. -/
theorem has_text_nodes_spec :
    (∀ n : RNode, has_text_nodes n = true ↔ TextReachable n)
    ∧ TreeT.has_text_nodes
        ⟨⟨0, 0, 100, 100⟩, ⟨0, 0, 100, 100⟩,
          .group (.mk 0 Transform.identity 1 .normal false none none [] none none none)
            [.path (.mk 1 Transform.identity .visible
              (some (.mk (.pattern (.mk 7 .objectBoundingBox .userSpaceOnUse
                  Transform.identity ⟨0, 0, 1, 1⟩ none
                  (.group (.mk 2 Transform.identity 1 .normal false none none [] none none none)
                    [.text 9 Transform.identity])))
                1 .nonZero)) none .fillAndStroke .geometricPrecision none 0)]⟩
      = true := by
  constructor
  · intro n
    exact ⟨has_text_nodes_sound (sizeOf n) n le_rfl, has_text_nodes_complete n⟩
  · rfl

/-! Theorems for the style resolvers. -/

/-- Claim C1 counterexample: a node outside clip-path content whose declared
fill parses to the legitimate value `none` makes `resolve_fill` return an
absence value, so fill resolution is not total. -/
theorem resolve_fill_counterexample :
    resolve_fill [] [{ fill := some PaintValue.none }] true false = none := by
  rfl

/-- Claim C1 (amended): outside clip-path content, `resolve_fill` returns a
Fill with opaque-black paint when no self-or-ancestor node declares fill, and
substitutes opaque black when the declared fill text is unparseable; it
returns a Fill exactly when paint interpretation produces a paint, and it
returns none when the declared paint interprets to no paint (such as `none`
or a failed reference without usable fallback). -/
theorem resolve_fill_spec (doc : Document) (node : Cursor) (has_bbox : Bool) :
    (find_declarer node AId.fill = Option.none →
      resolve_fill doc node has_bbox false =
        some (.mk (.color Color.black)
          (1 * ((parse_direct node (fun n => n.fill_opacity)).getD 1))
          ((find_and_parse node (fun n => n.fill_rule)).getD FillRule.nonZero)))
    ∧ (∀ d, find_declarer node AId.fill = some d →
        paint_attribute d AId.fill = some PaintValue.unparseable →
        ∃ fl, resolve_fill doc node has_bbox false = some fl ∧
          fl.paint = .color Color.black)
    ∧ (∀ d, find_declarer node AId.fill = some d →
        (convert_paint doc d AId.fill has_bbox).1 = Option.none →
        resolve_fill doc node has_bbox false = none)
    ∧ (∀ d paint sub, find_declarer node AId.fill = some d →
        convert_paint doc d AId.fill has_bbox = (some paint, sub) →
        resolve_fill doc node has_bbox false =
          some (.mk paint
            (sub * ((parse_direct node (fun n => n.fill_opacity)).getD 1))
            ((find_and_parse node (fun n => n.fill_rule)).getD FillRule.nonZero))) := by
  refine ⟨?_, ?_, ?_, ?_⟩
  · intro h
    simp [resolve_fill, h]
  · intro d hd hattr
    refine ⟨.mk (.color Color.black)
      (1 * ((parse_direct node (fun n => n.fill_opacity)).getD 1))
      ((find_and_parse node (fun n => n.fill_rule)).getD FillRule.nonZero),
      ?_, rfl⟩
    simp [resolve_fill, hd, convert_paint, hattr, RGBA.split_alpha, RGBA.black,
      Color.black]
  · intro d hd hconv
    rcases hc : convert_paint doc d AId.fill has_bbox with ⟨o, s⟩
    rw [hc] at hconv
    simp only at hconv
    subst hconv
    simp [resolve_fill, hd, hc]
  · intro d paint sub hd hconv
    simp [resolve_fill, hd, hconv]

/-- Claim C1 witness: on a node with no fill declarer, fill resolution yields
the opaque-black default. -/
theorem resolve_fill_spec_witness :
    resolve_fill [] [{}] true false =
      some (.mk (.color Color.black) (1 * 1) FillRule.nonZero) :=
  (resolve_fill_spec [] [{}] true).1 rfl

/-- Claim C2 counterexample: the referenced element with id `5` exists and is
not a paint-server kind; `convert_paint` yields no paint even though a
fallback clause exists, while the interpretation of that fallback clause the
claim mandates would yield the fallback color. -/
theorem convert_paint_counterexample :
    convert_paint [(5, ⟨false, Option.none⟩)]
        [{ fill := some (.funcIRI 5 (some (.color ⟨255, 0, 0, 1⟩))) }]
        AId.fill true = (none, 1)
    ∧ (from_fallback [{ fill := some (.funcIRI 5 (some (.color ⟨255, 0, 0, 1⟩))) }]
        (some (.color ⟨255, 0, 0, 1⟩))).1 = some (.color ⟨255, 0, 0⟩) := by
  exact ⟨rfl, rfl⟩

/-- Claim C2 (amended): for a functional-IRI paint value, when the referenced
element is absent from the document the interpretation falls back to the
fallback clause; when the referenced element exists but its tag is not a
recognized paint-server kind, the interpretation warns and yields no paint,
ignoring any fallback clause. -/
theorem convert_paint_func_iri_spec (doc : Document) (node : Cursor)
    (aid : AId) (has_bbox : Bool) (iri : ElemId) (fb : Option PaintFallback)
    (link : Element)
    (hattr : paint_attribute node aid = some (.funcIRI iri fb)) :
    (element_by_id doc iri = some link → link.is_paint_server = false →
      convert_paint doc node aid has_bbox = (none, 1))
    ∧ (element_by_id doc iri = Option.none →
      convert_paint doc node aid has_bbox = from_fallback node fb) := by
  constructor
  · intro h1 h2
    simp [convert_paint, hattr, h1, h2]
  · intro h1
    simp [convert_paint, hattr, h1]

/-- Claim C2 witness: a reference to an existing non-paint-server element
yields no paint, and a dangling reference resolves through the fallback. -/
theorem convert_paint_func_iri_witness :
    convert_paint [(5, ⟨false, Option.none⟩)]
        [{ fill := some (.funcIRI 5 Option.none) }] AId.fill true = (none, 1)
    ∧ convert_paint [] [{ stroke := some (.funcIRI 8 (some .none)) }]
        AId.stroke true =
      from_fallback [{ stroke := some (.funcIRI 8 (some .none)) }] (some .none) :=
  ⟨(convert_paint_func_iri_spec [(5, ⟨false, Option.none⟩)]
      [{ fill := some (.funcIRI 5 Option.none) }] AId.fill true 5 Option.none
      ⟨false, Option.none⟩ rfl).1 rfl rfl,
   (convert_paint_func_iri_spec [] [{ stroke := some (.funcIRI 8 (some .none)) }]
      AId.stroke true 8 (some .none) ⟨false, Option.none⟩ rfl).2 rfl⟩

/-- Claim C3: when the calling shape has no bounding box and the referenced
paint server resolves to a server object with object-bounding-box units, the
server is not used: the interpretation equals the fallback clause, exactly as
when the referenced element is absent from the document. -/
theorem object_bbox_fallback_spec (doc doc2 : Document) (node : Cursor)
    (aid : AId) (iri : ElemId) (fb : Option PaintFallback) (link : Element)
    (paint : Paint)
    (hattr : paint_attribute node aid = some (.funcIRI iri fb))
    (hlink : element_by_id doc iri = some link)
    (hps : link.is_paint_server = true)
    (hsrv : link.server = some (.server paint))
    (hunits : paint.units = some Units.objectBoundingBox)
    (habsent : element_by_id doc2 iri = Option.none) :
    convert_paint doc node aid false = from_fallback node fb
    ∧ convert_paint doc node aid false = convert_paint doc2 node aid false := by
  have h1 : convert_paint doc node aid false = from_fallback node fb := by
    simp [convert_paint, hattr, hlink, hps, hsrv, hunits]
  have h2 : convert_paint doc2 node aid false = from_fallback node fb := by
    simp [convert_paint, hattr, habsent]
  exact ⟨h1, h1.trans h2.symm⟩

/-- Claim C3 witness: a shape without a bounding box referencing an
object-bounding-box linear gradient resolves through the fallback clause. -/
theorem object_bbox_fallback_witness :
    convert_paint
        [(3, ⟨true, some (.server (.linearGradient
          ⟨3, 0, 0, 1, 0, ⟨.objectBoundingBox, Transform.identity, .pad, []⟩⟩))⟩)]
        [{ fill := some (.funcIRI 3 (some (.color ⟨0, 255, 0, 1⟩))) }]
        AId.fill false
      = from_fallback [{ fill := some (.funcIRI 3 (some (.color ⟨0, 255, 0, 1⟩))) }]
          (some (.color ⟨0, 255, 0, 1⟩)) :=
  (object_bbox_fallback_spec
      [(3, ⟨true, some (.server (.linearGradient
        ⟨3, 0, 0, 1, 0, ⟨.objectBoundingBox, Transform.identity, .pad, []⟩⟩))⟩)]
      [] [{ fill := some (.funcIRI 3 (some (.color ⟨0, 255, 0, 1⟩))) }]
      AId.fill 3 (some (.color ⟨0, 255, 0, 1⟩)) _ _ rfl rfl rfl rfl rfl rfl).1

/-- Claim C7: stroke resolution inside clip-path content always returns no
stroke, and a node with no self-or-ancestor declarer of the stroke attribute
resolves to no stroke (an absence value, not a black default). -/
theorem resolve_stroke_spec (fz : ℚ → Bool) (doc : Document) (node : Cursor)
    (has_bbox : Bool) :
    resolve_stroke fz doc node has_bbox true = none
    ∧ (find_declarer node AId.stroke = Option.none →
        resolve_stroke fz doc node has_bbox false = none) := by
  constructor
  · rfl
  · intro h
    simp [resolve_stroke, h]

/-- Claim C7 witness: on a bare node chain with no stroke declarer, stroke
resolution yields none. -/
theorem resolve_stroke_spec_witness :
    resolve_stroke fzExact [] [{}] true false = none :=
  (resolve_stroke_spec fzExact [] [{}] true).2 rfl

/-! Theorems for the dash-array normalizer. -/

/-- Claim C4 counterexample: on the list `[-0.0, 1.0]` the code yields no
dashing (the sign bit of `-0.0` is set) while the reference definition, whose
"negative entry" is an ordered comparison with zero, keeps the even-length
list as-is. -/
theorem conv_dasharray_counterexample :
    normalize_dasharray fzExact [F64.negZero, ⟨false, 1⟩] = none
    ∧ spec_normalize_dasharray fzExact [F64.negZero, ⟨false, 1⟩] =
        some [F64.negZero, ⟨false, 1⟩] := by
  constructor
  · rfl
  · simp [spec_normalize_dasharray, F64.negZero, F64.val, sumVals, fzExact]

/-- Claim C4 (amended): dash normalization equals the reference definition in
which an entry is invalid when its floating-point sign bit is set (so `-0.0`
also voids the list): any sign-negative entry yields no dashing, a sum
fuzzy-equal to zero yields no dashing, an odd-length list is duplicated once
(the whole sequence appended to itself), an even-length list is kept as-is,
and a node with no declaring ancestor yields no dashing. -/
theorem conv_dasharray_spec (fz : ℚ → Bool) (node : Cursor) (list : List F64) :
    (find_declarer node AId.strokeDasharray = Option.none →
        conv_dasharray fz node = none)
    ∧ normalize_dasharray fz list = spec_normalize_dasharray_signbit fz list
    ∧ (list.any F64.is_sign_negative = true → normalize_dasharray fz list = none)
    ∧ (list.any F64.is_sign_negative = false → fz (sumVals list) = true →
        normalize_dasharray fz list = none)
    ∧ (list.any F64.is_sign_negative = false → fz (sumVals list) = false →
        list.length % 2 ≠ 0 → normalize_dasharray fz list = some (list ++ list))
    ∧ (list.any F64.is_sign_negative = false → fz (sumVals list) = false →
        list.length % 2 = 0 → normalize_dasharray fz list = some list) := by
  refine ⟨?_, rfl, ?_, ?_, ?_, ?_⟩
  · intro h
    simp [conv_dasharray, h]
  · intro h
    simp [normalize_dasharray, h]
  · intro h1 h2
    simp [normalize_dasharray, h1, h2]
  · intro h1 h2 h3
    simp [normalize_dasharray, h1, h2, h3]
  · intro h1 h2 h3
    simp [normalize_dasharray, h1, h2, h3]

/-- Claim C4 witness: the odd list `[1, 2, 3]` is duplicated once to
`[1, 2, 3, 1, 2, 3]`. -/
theorem conv_dasharray_spec_witness :
    normalize_dasharray fzExact [⟨false, 1⟩, ⟨false, 2⟩, ⟨false, 3⟩] =
      some ([⟨false, 1⟩, ⟨false, 2⟩, ⟨false, 3⟩] ++
        [⟨false, 1⟩, ⟨false, 2⟩, ⟨false, 3⟩]) :=
  (conv_dasharray_spec fzExact []
      [⟨false, 1⟩, ⟨false, 2⟩, ⟨false, 3⟩]).2.2.2.2.1
    (by decide) (by norm_num [fzExact, sumVals, F64.val]) (by decide)

/-- Claim C10: a dash list containing the IEEE negative zero yields no
dashing, because negativity is decided by the floating-point sign bit
(`is_sign_negative`), not by an ordered comparison with zero: `-0.0` has
numeric value `0` (it compares equal to `0.0`) yet counts as a negative
entry. -/
theorem negative_zero_dasharray (fz : ℚ → Bool) (list : List F64)
    (h : F64.negZero ∈ list) :
    normalize_dasharray fz list = none
    ∧ F64.val F64.negZero = 0
    ∧ F64.is_sign_negative F64.negZero = true
    ∧ ¬(F64.val F64.negZero < 0) := by
  refine ⟨?_, by simp [F64.val, F64.negZero], rfl, by simp [F64.val, F64.negZero]⟩
  have hany : list.any F64.is_sign_negative = true :=
    List.any_eq_true.mpr ⟨F64.negZero, h, rfl⟩
  simp [normalize_dasharray, hany]

/-- Claim C10 witness: the singleton list `[-0.0]` yields no dashing. -/
theorem negative_zero_dasharray_witness :
    F64.negZero ∈ [F64.negZero]
    ∧ normalize_dasharray fzExact [F64.negZero] = none :=
  ⟨List.mem_singleton.mpr rfl,
   (negative_zero_dasharray fzExact [F64.negZero]
      (List.mem_singleton.mpr rfl)).1⟩

end Usvg
